import Mathlib

/-!
Verification development for the training script `train.py` of the
lymphocytosis-diagnosis repository.

The script's control logic is shallowly embedded here:

* the epoch-level scheduling state (gradient accumulation, learning-rate
  plateau policy, best-checkpoint trigger, checkpoint/resume snapshot) is
  embedded over `ℚ` — the claims about it concern control decisions
  (comparisons, counters), for which exact rationals are a faithful,
  executable model of the script's float arithmetic;
* the per-patient loss closure (`closure` in `train.py`) is embedded over
  `ℝ`, since the claims about it concern `log`/`exp` identities and
  inequalities.

Machine-float rounding is not modelled; every constant is the exact decimal
literal that appears in the source.
-/

namespace LymphTrain

/- ===== Global constants, train.py lines 22-31 ===== -/

def SICK_TARGET : ℝ := 1

def HEALTHY_TARGET : ℝ := 1 - SICK_TARGET

/-- The literal `1.3169578969248166` from train.py line 25 (a decimal
approximation of `log (2 + sqrt 3)`, per the source comment). -/
def NOISY_POS_TARGET : ℝ := 1.3169578969248166

/-- The literal `-1.3169578969248164` from train.py line 26 (a decimal
approximation of `log (2 - sqrt 3)`, per the source comment). -/
def NOISY_NEG_TARGET : ℝ := -1.3169578969248164

def EPOCHS_LR_CRITERION : ℕ := 10

/-- The plateau threshold initial value `0.01`, train.py line 29.  It is used
only in comparisons and products, so it lives on the rational side. -/
def REDUCE_LR_CRITERION : ℚ := 0.01

/-- The literal `0.3989422804014327` from train.py line 31 (a decimal
approximation of `1 / sqrt (2 * pi)`, per the source comment). -/
def NORM_FACTOR : ℝ := 0.3989422804014327

/- ===== Learning-rate plateau policy, train.py lines 39-40 and 516-525 ===== -/

/-- The two values of `options.training.lr_decay_scheme`. -/
inductive LRScheme
  | step
  | plateau
deriving DecidableEq

/-- `np.mean` of a list of rationals.  The source only evaluates it on
non-empty histories (guarded by `tr_epoch > 0`); on `[]` this returns the
junk value `0` where numpy would produce `nan`. -/
def qMean (l : List ℚ) : ℚ := l.sum / (l.length : ℚ)

/-- The slice `xs[-K:]`: the last `K` entries of a list (the whole list when
it is shorter than `K`). -/
def lastSlice (K : ℕ) (l : List ℚ) : List ℚ := l.drop (l.length - K)

/-- The mutable pair `(current_lr, _reduce_lr_criterion)` of `main`
(train.py lines 39, 102): the reported learning rate and the plateau
threshold. -/
structure PlateauState where
  current_lr : ℚ
  criterion : ℚ
deriving DecidableEq, Repr

/-- Embedding of the plateau learning-rate check, train.py lines 516-525.
Inputs are the state read there: the decay scheme, `options.training.lr_decay`,
the current epoch counter `tr_epoch`, the loss history `train_val_losses`
(list of `(train, val)` pairs, not yet containing the current epoch), and the
just-computed `total_train_loss`.  Returns the updated `(current_lr,
_reduce_lr_criterion)` pair together with whether a decay event fired
(`model.reduce_lr()` invoked). -/
def plateauUpdate (scheme : LRScheme) (lr_decay : ℚ) (tr_epoch : ℕ)
    (train_val_losses : List (ℚ × ℚ)) (total_train_loss : ℚ)
    (st : PlateauState) : PlateauState × Bool :=
  if scheme = LRScheme.plateau ∧ tr_epoch > 0 then
    if train_val_losses.length < EPOCHS_LR_CRITERION then
      if |qMean (train_val_losses.map Prod.fst) - total_train_loss| < st.criterion then
        (⟨st.current_lr * lr_decay, st.criterion * 0.1⟩, true)
      else
        (st, false)
    else if |qMean (lastSlice EPOCHS_LR_CRITERION (train_val_losses.map Prod.fst))
              - total_train_loss| < st.criterion then
      (⟨st.current_lr * lr_decay, st.criterion * 0.1⟩, true)
    else
      (st, false)
  else
    (st, false)

/- ===== Epoch tail: epoch counter, history, best checkpoint ===== -/

/-- `np.min` of a list of rationals; the source only applies it to non-empty
slices (guarded by `tr_epoch > 1`), on `[]` this returns the junk value `0`. -/
def npMin : List ℚ → ℚ
  | [] => 0
  | h :: t => t.foldl min h

/-- The persisted snapshot `system_state` (train.py lines 660-664 and
672-676): `{tr_epoch, iter_mark, train_val_losses}`.  The iteration counter
`iter_mark` is also persisted by the script, but no claim constrains it, so
it is not tracked here. -/
structure SystemState where
  tr_epoch : ℕ
  train_val_losses : List (ℚ × ℚ)
deriving DecidableEq, Repr

/-- Embedding of the end-of-epoch bookkeeping, train.py lines 516-666: the
plateau check (line 516, executed with the pre-increment `tr_epoch` and the
history of previous epochs), then `tr_epoch += 1` (line 622), the append of
the epoch's `(train, val)` losses (line 627), and the best-checkpoint
condition (line 658), which is evaluated with the incremented epoch counter
and the appended history.  Returns the new system state, the new
learning-rate state, the decay-event flag and the best-checkpoint flag. -/
def epochTail (scheme : LRScheme) (lr_decay : ℚ) (s : SystemState)
    (p : PlateauState) (total_train_loss total_val_loss : ℚ) :
    SystemState × PlateauState × Bool × Bool :=
  let pd := plateauUpdate scheme lr_decay s.tr_epoch s.train_val_losses total_train_loss p
  let tr_epoch' := s.tr_epoch + 1
  let hist' := s.train_val_losses ++ [(total_train_loss, total_val_loss)]
  let best := tr_epoch' = 1 ∨
      (tr_epoch' > 1 ∧ total_val_loss < npMin (hist'.dropLast.map Prod.snd))
  (⟨tr_epoch', hist'⟩, pd.1, pd.2, decide best)

/-- Iterated epoch driver: runs `epochTail` over a list of per-epoch
`(total_train_loss, total_val_loss)` pairs, collecting for each epoch the
pair (decay fired, best checkpoint written). -/
def runEpochs (scheme : LRScheme) (lr_decay : ℚ) :
    SystemState × PlateauState → List (ℚ × ℚ) →
    (SystemState × PlateauState) × List (Bool × Bool)
  | sp, [] => (sp, [])
  | (s, p), (tl, vl) :: rest =>
    let e := epochTail scheme lr_decay s p tl vl
    let r := runEpochs scheme lr_decay (e.1, e.2.1) rest
    (r.1, (e.2.2.1, e.2.2.2) :: r.2)

/-- Embedding of the resume path, train.py lines 39-40, 73-102: the snapshot
restores `tr_epoch` and `train_val_losses` (lines 85-87), while
`_reduce_lr_criterion` is re-initialised to the module constant (line 39)
and `current_lr` to `options.training.lr` (line 102) — neither is part of
the persisted snapshot. -/
def resumeState (snapshot : SystemState) (options_lr : ℚ) :
    SystemState × PlateauState :=
  (snapshot, ⟨options_lr, REDUCE_LR_CRITERION⟩)

/- ===== Gradient accumulation scheduler, train.py lines 435-476 ===== -/

/-- The curriculum exclusion, train.py lines 443-444: a data point is skipped
when its label is `1` (sick) and the current epoch is below
`options.training.neg_train_until`.  A data point is the pair
(label, gradient contribution of this patient's backward pass). -/
def skipDP (neg_train_until tr_epoch : ℕ) (dp : ℕ × ℚ) : Bool :=
  dp.1 == 1 && decide (tr_epoch < neg_train_until)

/-- The state threaded through the training inner loop: the running counter
`accumulated_examples`, the accumulated gradient of one representative model
parameter, and — as observable output — the gradient values at each
`model.take_optimiser_step()` call, in order. -/
structure AccumState where
  accumulated_examples : ℕ
  grad : ℚ
  steps : List ℚ
deriving DecidableEq, Repr

/-- One iteration of the training inner loop, train.py lines 436-476, for the
data point at position `idx` of a dataloader of length `n`:
`model.reset_gradients()` when the counter is 0 (line 439-440), the
curriculum `continue` (lines 443-444), the backward pass accumulating the
patient's gradient unless `ae_only` (lines 463-465), the counter increment
(line 467), and the flush (lines 468-476): when the counter reaches
`subj_batch_size` or this is the last data point, every parameter gradient is
rescaled by `1/accumulated_examples`, the counter is reset and an optimizer
step is taken. -/
def trainBatchStep (subj_batch_size neg_train_until tr_epoch : ℕ)
    (ae_only : Bool) (n idx : ℕ) (st : AccumState) (dp : ℕ × ℚ) : AccumState :=
  let st1 := if st.accumulated_examples = 0 then { st with grad := 0 } else st
  if skipDP neg_train_until tr_epoch dp then st1
  else
    let st2 := if ae_only then st1 else { st1 with grad := st1.grad + dp.2 }
    let acc := st2.accumulated_examples + 1
    if acc = subj_batch_size ∨ idx + 1 = n then
      { accumulated_examples := 0,
        grad := st2.grad * (1 / (acc : ℚ)),
        steps := st2.steps ++ [st2.grad * (1 / (acc : ℚ))] }
    else
      { st2 with accumulated_examples := acc }

/-- The training inner loop folded over the remaining data points, starting
at position `idx`. -/
def trainEpochAux (subj_batch_size neg_train_until tr_epoch : ℕ)
    (ae_only : Bool) (n : ℕ) : ℕ → AccumState → List (ℕ × ℚ) → AccumState
  | _, st, [] => st
  | idx, st, dp :: rest =>
    trainEpochAux subj_batch_size neg_train_until tr_epoch ae_only n (idx + 1)
      (trainBatchStep subj_batch_size neg_train_until tr_epoch ae_only n idx st dp) rest

/-- One epoch of the training inner loop, train.py lines 435-476: counter
starts at 0 (line 435) and the loop runs over the whole epoch's data in
order. -/
def trainEpoch (subj_batch_size neg_train_until tr_epoch : ℕ) (ae_only : Bool)
    (data : List (ℕ × ℚ)) : AccumState :=
  trainEpochAux subj_batch_size neg_train_until tr_epoch ae_only data.length 0
    ⟨0, 0, []⟩ data

/- ===== Specification-side description of the scheduler (for refinement) ===== -/

/-- Chunks of size `sbs` of a list, spec side of the gradient-accumulation
refinement: the claim's logical mini-batches.  Junk (`[]`) when `sbs = 0`. -/
def specBatches (sbs : ℕ) (l : List ℚ) : List (List ℚ) :=
  if h : l = [] ∨ sbs = 0 then []
  else l.take sbs :: specBatches sbs (l.drop sbs)
termination_by l.length
decreasing_by
  push_neg at h
  simp only [List.length_drop]
  have h1 : 0 < l.length := List.length_pos.mpr h.1
  have h2 : 0 < sbs := Nat.pos_of_ne_zero h.2
  omega

/-- The mean of one logical mini-batch of per-patient gradients. -/
def batchMean (b : List ℚ) : ℚ := b.sum / (b.length : ℚ)

/-- Spec side of the claim: the per-step parameter gradients are the means of
the consecutive mini-batches of per-patient gradients. -/
def specSteps (sbs : ℕ) (l : List ℚ) : List ℚ := (specBatches sbs l).map batchMean

/-- The per-patient gradient contributions of the data points that the
curriculum does not skip, in order. -/
def processedGrads (neg_train_until tr_epoch : ℕ) (data : List (ℕ × ℚ)) : List ℚ :=
  (data.filter (fun dp => !skipDP neg_train_until tr_epoch dp)).map Prod.snd

/- ===== The per-patient loss closure, train.py lines 169-186 and 191-404 ===== -/

/-- The two values of `options.training.loss` (train.py lines 169-176). -/
inductive LossKind
  | bce
  | nll
deriving DecidableEq

/-- The fields of `options.training` read by the closure. -/
structure TrainingOpts where
  scale_0 : ℝ
  scale_1 : ℝ
  scale_imgs : ℝ
  scale_attrs : ℝ
  scale_recon : ℝ
  scale_sparse : ℝ
  loss : LossKind

/-- The fields of `options.model` read by the closure; `system_mode` is the
string of mode flags, membership tests `'X' in options.model.system_mode`
become list membership. -/
structure ModelOpts where
  system_mode : List Char

structure Options where
  training : TrainingOpts
  model : ModelOpts

/-- `tensor.item()`: the single element of a one-element tensor, an error
(`none`) otherwise. -/
def item : List ℝ → Option ℝ
  | [x] => some x
  | _ => none

/-- Elementwise `F.binary_cross_entropy_with_logits` on a logit `x` and a
0/1 target `t`: `log (1 + exp x) - t * x`. -/
noncomputable def bceLogits (x t : ℝ) : ℝ := Real.log (1 + Real.exp x) - t * x

/-- `F.binary_cross_entropy_with_logits(input, target)` with the default
mean reduction.  PyTorch raises when the target size differs from the input
size, and the mean of an empty tensor is not a number: both are `none`. -/
noncomputable def bceMean (input target : List ℝ) : Option ℝ :=
  if input.length = target.length ∧ input ≠ [] then
    some (((input.zip target).map (fun st => bceLogits st.1 st.2)).sum / input.length)
  else none

/-- `F.binary_cross_entropy(p, t)` on single probabilities (used for the
gate weight, train.py line 274): `-(t log p + (1-t) log (1-p))`. -/
noncomputable def bceProb (p t : ℝ) : ℝ :=
  -(t * Real.log p + (1 - t) * Real.log (1 - p))

/-- `F.sigmoid`. -/
noncomputable def sigmoid (x : ℝ) : ℝ := 1 / (1 + Real.exp (-x))

/-- The mode-`M` Gaussian-mixture likelihood, train.py lines 236-239 and
244-247: `NORM_FACTOR * (w * exp(-0.5*(i - t)^2) + (1-w) * exp(-0.5*(a - t)^2))`
where `i` is the image score, `a` the attribute score and `t` the
class-specific noisy target. -/
noncomputable def pred_prob (w i a t : ℝ) : ℝ :=
  NORM_FACTOR * (w * Real.exp (-0.5 * (i - t) ^ 2) +
    (1 - w) * Real.exp (-0.5 * (a - t) ^ 2))

/-- `get_gate_target`, train.py lines 179-186.  `the_two_scores` is
`[attr_score, img_score]`; `np.argmin` / `np.argmax` return the first index
attaining the minimum / maximum, so index 0 (the attribute expert) wins
ties.  A target other than 0 or 1 leaves the result unbound (an error).
Stated over any linear order since the script compares floats. -/
def get_gate_target {α : Type} [LinearOrder α] (img_score attr_score : α)
    (target : ℕ) : Option ℕ :=
  if target = 0 then some (if attr_score ≤ img_score then 0 else 1)
  else if target = 1 then some (if img_score > attr_score then 1 else 0)
  else none

/-- The `result_dict` produced by the model for one patient (`model.py` is
not part of the sources; these are exactly the fields the closure reads).
Score tensors are lists of reals; `w_img_score`, `loss_recon` and
`loss_sparse` are only ever used as scalars. -/
structure ModelOutput where
  img_scores : List ℝ
  agg_img_score : List ℝ
  attr_score : List ℝ
  p_score : List ℝ
  w_img_score : ℝ
  loss_recon : ℝ
  loss_sparse : ℝ

/-- The `return_dict` of the closure.  Fields that a branch sets to `None`
(or never sets) are `none`. -/
structure LossBundle where
  total : ℝ
  imgs : Option ℝ
  attrs : Option ℝ
  recon : Option ℝ
  sparse : Option ℝ
  w_img_score : Option ℝ
  score : ℝ
  pred : ℝ
  gate_target : Option ℝ
  agg_out : Option (List ℝ)
  attr_out : Option (List ℝ)

/-- The `G`/`M` branch of the closure, train.py lines 209-298.  `lossFn` is
the captured `loss_fn` selected at lines 169-176 (for the `bce` family it is
`bceMean`).  The mode-`M` likelihood and the `.item()` calls (lines 266-267,
291-293) require one-element score tensors; a shape the script would crash
on is `none`. -/
noncomputable def closureGM (opts : Options) (lossFn : List ℝ → List ℝ → Option ℝ)
    (mo : ModelOutput) (p_label : ℕ) : Option LossBundle := do
  let mode := opts.model.system_mode
  let w := mo.w_img_score
  let core ←
    if 'G' ∈ mode then
      if p_label = 0 then do
        let li ← lossFn mo.agg_img_score
          (List.replicate mo.agg_img_score.length HEALTHY_TARGET)
        let la ← lossFn mo.attr_score
          (List.replicate mo.attr_score.length HEALTHY_TARGET)
        let ps ← item mo.p_score
        pure (li, la, -1 * opts.training.scale_0 * Real.log (1 - ps))
      else do
        let li ← lossFn mo.agg_img_score [SICK_TARGET]
        let la ← lossFn mo.attr_score [SICK_TARGET]
        let ps ← item mo.p_score
        pure (li, la, -1 * opts.training.scale_1 * Real.log ps)
    else
      if p_label = 0 then do
        let li ← lossFn mo.agg_img_score
          (List.replicate mo.agg_img_score.length HEALTHY_TARGET)
        let la ← lossFn mo.attr_score
          (List.replicate mo.attr_score.length HEALTHY_TARGET)
        let iS ← item mo.agg_img_score
        let aS ← item mo.attr_score
        pure (li, la,
          -1 * opts.training.scale_0 * Real.log (pred_prob w iS aS NOISY_NEG_TARGET))
      else do
        let li ← lossFn mo.agg_img_score [SICK_TARGET]
        let la ← lossFn mo.attr_score [SICK_TARGET]
        let iS ← item mo.agg_img_score
        let aS ← item mo.attr_score
        pure (li, la,
          -1 * opts.training.scale_1 * Real.log (pred_prob w iS aS NOISY_POS_TARGET))
  let tb ←
    if 'T' ∈ mode then do
      let iS ← item mo.agg_img_score
      let aS ← item mo.attr_score
      let g ← get_gate_target iS aS p_label
      let gtv := if g = 0 then HEALTHY_TARGET else SICK_TARGET
      pure (core.2.2 + bceProb w gtv, some gtv)
    else
      pure (core.2.2, (none : Option ℝ))
  let ps ← item mo.p_score
  pure { total := tb.1, imgs := some core.1, attrs := some core.2.1,
         recon := none, sparse := none, w_img_score := some w,
         score := ps, pred := ps, gate_target := tb.2,
         agg_out := some mo.agg_img_score, attr_out := some mo.attr_score }

/-- The additive (`I`/`A`/`D`) path of the closure, train.py lines 300-404.
Branch losses are computed whenever their mode flag is set (errors included),
but are added to `total` only when `ae_only` is false; the `D` terms are
added unconditionally. -/
noncomputable def closureAdd (opts : Options) (lossFn : List ℝ → List ℝ → Option ℝ)
    (mo : ModelOutput) (p_label : ℕ) (test ae_only : Bool) : Option LossBundle := do
  let mode := opts.model.system_mode
  let imgsOpt ←
    if 'I' ∈ mode then do
      let raw ←
        if p_label = 0 then
          (if !test then
            lossFn mo.agg_img_score
              (List.replicate mo.agg_img_score.length HEALTHY_TARGET)
          else
            lossFn mo.agg_img_score [HEALTHY_TARGET]).map
            (fun l => opts.training.scale_0 * l)
        else if p_label = 1 then
          (lossFn mo.agg_img_score [SICK_TARGET]).map
            (fun l => opts.training.scale_1 * l)
        else none
      pure (some (opts.training.scale_imgs * raw))
    else
      pure (none : Option ℝ)
  let attrsOpt ←
    if 'A' ∈ mode then do
      let raw ←
        if p_label = 0 then
          (lossFn mo.attr_score [HEALTHY_TARGET]).map
            (fun l => opts.training.scale_0 * l)
        else
          (lossFn mo.attr_score [SICK_TARGET]).map
            (fun l => opts.training.scale_1 * l)
      pure (some (opts.training.scale_attrs * raw))
    else
      pure (none : Option ℝ)
  let reconOpt := if 'D' ∈ mode then
    some (opts.training.scale_recon * mo.loss_recon) else none
  let sparseOpt := if 'D' ∈ mode then
    some (opts.training.scale_sparse * mo.loss_sparse) else none
  let loss := (0 : ℝ) + (if ae_only then 0 else imgsOpt.getD 0)
    + (if ae_only then 0 else attrsOpt.getD 0)
    + reconOpt.getD 0 + sparseOpt.getD 0
  let sp ←
    match opts.training.loss with
    | LossKind.bce => do
      let ps ← item mo.p_score
      pure (ps, sigmoid ps)
    | LossKind.nll =>
      match mo.p_score with
      | [x0, x1] => some (x1, Real.exp x1 / (Real.exp x0 + Real.exp x1))
      | _ => none
  pure { total := loss, imgs := imgsOpt, attrs := attrsOpt,
         recon := reconOpt, sparse := sparseOpt, w_img_score := none,
         score := sp.1, pred := sp.2, gate_target := none,
         agg_out := none, attr_out := none }

/-- The closure, train.py lines 191-404: the `G`/`M` branch returns early
(and reads neither `test` nor `ae_only`); otherwise the additive path runs. -/
noncomputable def closure (opts : Options) (lossFn : List ℝ → List ℝ → Option ℝ)
    (mo : ModelOutput) (p_label : ℕ) (test ae_only : Bool) : Option LossBundle :=
  if 'G' ∈ opts.model.system_mode ∨ 'M' ∈ opts.model.system_mode then
    closureGM opts lossFn mo p_label
  else
    closureAdd opts lossFn mo p_label test ae_only

/-- Modelled from the spec: `model.py` (the Model collaborator) is not part
of the sources.  Per the spec's mode-`I` description, the model's
`agg_img_score` output holds every per-image score when the closure is
called with `test=False`, and only the single aggregated score when called
with `test=True`. -/
def modelAggImgScore (imgScores : List ℝ) (aggScore : ℝ) (test : Bool) : List ℝ :=
  if test then [aggScore] else imgScores

/- ===== Helper lemmas ===== -/

theorem lt_foldl_min (q h : ℚ) (t : List ℚ) :
    q < t.foldl min h ↔ q < h ∧ ∀ x ∈ t, q < x := by
  induction t generalizing h with
  | nil => simp
  | cons a t ih =>
    simp only [List.foldl_cons, List.mem_cons, ih, lt_min_iff]
    constructor
    · rintro ⟨⟨h1, h2⟩, h3⟩
      exact ⟨h1, fun x hx => hx.elim (fun hh => hh ▸ h2) (h3 x)⟩
    · rintro ⟨h1, h2⟩
      exact ⟨⟨h1, h2 a (Or.inl rfl)⟩, fun x hx => h2 x (Or.inr hx)⟩

theorem lt_npMin_iff (q : ℚ) (l : List ℚ) (hl : l ≠ []) :
    q < npMin l ↔ ∀ x ∈ l, q < x := by
  cases l with
  | nil => exact absurd rfl hl
  | cons h t => simp [npMin, lt_foldl_min]

/- ===== Claim C3: plateau learning-rate policy ===== -/

/-- Claim C3: under the plateau policy, evaluated for every epoch index
greater than 0, with fewer than `K = 10` recorded epochs the current
training loss is compared against the mean of all prior epochs' training
losses (the first components of the history, not the validation losses);
with at least `K` recorded epochs it is compared against the mean of the
most recent `K` training losses; whenever the absolute difference is below
the current threshold, the learning rate is decayed exactly once and the
threshold is multiplied by `0.1` in the same event, and otherwise the state
is unchanged. -/
theorem plateau_policy_window_and_decay (scheme : LRScheme) (lr_decay : ℚ)
    (tr_epoch : ℕ) (hist : List (ℚ × ℚ)) (loss : ℚ) (st : PlateauState)
    (hs : scheme = LRScheme.plateau) (he : 0 < tr_epoch) :
    EPOCHS_LR_CRITERION = 10
  ∧ (hist.length < EPOCHS_LR_CRITERION →
      ((plateauUpdate scheme lr_decay tr_epoch hist loss st).2 = true ↔
        |qMean (hist.map Prod.fst) - loss| < st.criterion))
  ∧ (EPOCHS_LR_CRITERION ≤ hist.length →
      ((plateauUpdate scheme lr_decay tr_epoch hist loss st).2 = true ↔
        |qMean (lastSlice EPOCHS_LR_CRITERION (hist.map Prod.fst)) - loss|
          < st.criterion))
  ∧ ((plateauUpdate scheme lr_decay tr_epoch hist loss st).2 = true →
      (plateauUpdate scheme lr_decay tr_epoch hist loss st).1
        = ⟨st.current_lr * lr_decay, st.criterion * 0.1⟩)
  ∧ ((plateauUpdate scheme lr_decay tr_epoch hist loss st).2 = false →
      (plateauUpdate scheme lr_decay tr_epoch hist loss st).1 = st) := by
  subst hs
  have hc : LRScheme.plateau = LRScheme.plateau ∧ tr_epoch > 0 := ⟨rfl, he⟩
  refine ⟨rfl, ?_, ?_, ?_, ?_⟩
  · intro hlen
    rw [plateauUpdate, if_pos hc, if_pos hlen]
    split_ifs with hcmp <;> simp [hcmp]
  · intro hlen
    rw [plateauUpdate, if_pos hc, if_neg (not_lt.mpr hlen)]
    split_ifs with hcmp <;> simp [hcmp]
  · rw [plateauUpdate, if_pos hc]
    split_ifs <;> simp
  · rw [plateauUpdate, if_pos hc]
    split_ifs <;> simp

/-- Witness for C3 at a concrete input: epoch 1, a one-entry history, a
training loss within the threshold of the history mean. -/
theorem plateau_policy_window_and_decay_witness :
    LRScheme.plateau = LRScheme.plateau ∧ 0 < 1
  ∧ (([((1 : ℚ), (2 : ℚ))].length < EPOCHS_LR_CRITERION) →
      ((plateauUpdate LRScheme.plateau (1/2) 1 [(1, 2)] 1 ⟨1, 1/100⟩).2 = true ↔
        |qMean ([((1 : ℚ), (2 : ℚ))].map Prod.fst) - 1| < (1/100 : ℚ))) :=
  ⟨rfl, Nat.one_pos,
    fun _ => (plateau_policy_window_and_decay LRScheme.plateau (1/2) 1 [(1, 2)] 1
      ⟨1, 1/100⟩ rfl Nat.one_pos).2.1 (by decide)⟩

/- ===== Claim C5: best-checkpoint trigger ===== -/

/-- Claim C5: a best-so-far checkpoint is written after a completed epoch if
and only if that epoch's validation loss is strictly lower than every
previously recorded validation loss (with the first completed epoch always
qualifying, its history of prior epochs being empty); on the validation-loss
sequence `[0.9, 0.5, 0.6, 0.3]` the writes occur exactly at epochs 1, 2 and
4 and never at epoch 3. -/
theorem best_checkpoint_trigger (scheme : LRScheme) (lr_decay : ℚ)
    (s : SystemState) (p : PlateauState) (tl vl : ℚ)
    (hlen : s.train_val_losses.length = s.tr_epoch) :
    ((epochTail scheme lr_decay s p tl vl).2.2.2 = true ↔
      ∀ pr ∈ s.train_val_losses, vl < pr.2)
  ∧ (runEpochs LRScheme.step 1 (⟨0, []⟩, ⟨1, REDUCE_LR_CRITERION⟩)
        [(1, 0.9), (1, 0.5), (1, 0.6), (1, 0.3)]).2.map Prod.snd
      = [true, true, false, true] := by
  constructor
  · simp only [epochTail, List.dropLast_concat, decide_eq_true_eq]
    rcases Nat.eq_zero_or_pos s.tr_epoch with h0 | h0
    · have : s.train_val_losses = [] := List.length_eq_zero.mp (hlen.trans h0)
      simp [this, h0]
    · have hne : s.train_val_losses ≠ [] := by
        intro hemp
        rw [hemp] at hlen
        simp at hlen
        omega
      have hne' : s.train_val_losses.map Prod.snd ≠ [] := by
        simpa using hne
      constructor
      · rintro (h1 | ⟨-, h2⟩)
        · exact absurd h1 (by omega)
        · intro pr hpr
          exact (lt_npMin_iff vl _ hne').mp h2 pr.2 (List.mem_map_of_mem Prod.snd hpr)
      · intro h
        refine Or.inr ⟨by omega, (lt_npMin_iff vl _ hne').mpr ?_⟩
        intro x hx
        rcases List.mem_map.mp hx with ⟨pr, hpr, rfl⟩
        exact h pr hpr
  · simp only [runEpochs, epochTail, plateauUpdate, qMean, npMin, lastSlice,
      REDUCE_LR_CRITERION, EPOCHS_LR_CRITERION]
    norm_num

/-- Witness for C5 at a concrete input: one prior epoch with validation loss
`0.9`, current validation loss `0.5` — a new minimum, so the trigger fires. -/
theorem best_checkpoint_trigger_witness :
    (([((1 : ℚ), (0.9 : ℚ))] : List (ℚ × ℚ)).length = 1)
  ∧ ((epochTail LRScheme.step 1 ⟨1, [(1, 0.9)]⟩ ⟨1, REDUCE_LR_CRITERION⟩ 1 0.5).2.2.2
        = true ↔ ∀ pr ∈ [((1 : ℚ), (0.9 : ℚ))], (0.5 : ℚ) < pr.2) :=
  ⟨rfl, (best_checkpoint_trigger LRScheme.step 1 ⟨1, [(1, 0.9)]⟩
    ⟨1, REDUCE_LR_CRITERION⟩ 1 0.5 rfl).1⟩

/- ===== Claim C4: checkpoint / resume ===== -/

theorem plateauUpdate_criterion_independent (scheme : LRScheme) (lr_decay : ℚ)
    (tr_epoch : ℕ) (hist : List (ℚ × ℚ)) (loss : ℚ) (p p' : PlateauState)
    (hc : p.criterion = p'.criterion) :
    (plateauUpdate scheme lr_decay tr_epoch hist loss p).2
      = (plateauUpdate scheme lr_decay tr_epoch hist loss p').2
  ∧ (plateauUpdate scheme lr_decay tr_epoch hist loss p).1.criterion
      = (plateauUpdate scheme lr_decay tr_epoch hist loss p').1.criterion := by
  unfold plateauUpdate
  rw [hc]
  split_ifs <;> simp [hc]

theorem runEpochs_criterion_independent (scheme : LRScheme) (lr_decay : ℚ) :
    ∀ (losses : List (ℚ × ℚ)) (s : SystemState) (p p' : PlateauState),
      p.criterion = p'.criterion →
      (runEpochs scheme lr_decay (s, p) losses).1.1
          = (runEpochs scheme lr_decay (s, p') losses).1.1
      ∧ (runEpochs scheme lr_decay (s, p) losses).1.2.criterion
          = (runEpochs scheme lr_decay (s, p') losses).1.2.criterion
      ∧ (runEpochs scheme lr_decay (s, p) losses).2
          = (runEpochs scheme lr_decay (s, p') losses).2 := by
  intro losses
  induction losses with
  | nil =>
    intro s p p' hc
    exact ⟨rfl, hc, rfl⟩
  | cons e rest ih =>
    intro s p p' hc
    rcases e with ⟨tl, vl⟩
    have hp := plateauUpdate_criterion_independent scheme lr_decay s.tr_epoch
      s.train_val_losses tl p p' hc
    have ih' := ih ⟨s.tr_epoch + 1, s.train_val_losses ++ [(tl, vl)]⟩
      (plateauUpdate scheme lr_decay s.tr_epoch s.train_val_losses tl p).1
      (plateauUpdate scheme lr_decay s.tr_epoch s.train_val_losses tl p').1
      hp.2
    simp only [runEpochs, epochTail]
    exact ⟨ih'.1, ih'.2.1, by rw [hp.1, ih'.2.2]⟩

theorem runEpochs_append (scheme : LRScheme) (lr_decay : ℚ)
    (l₁ l₂ : List (ℚ × ℚ)) :
    ∀ (sp : SystemState × PlateauState),
      runEpochs scheme lr_decay sp (l₁ ++ l₂)
        = ((runEpochs scheme lr_decay (runEpochs scheme lr_decay sp l₁).1 l₂).1,
           (runEpochs scheme lr_decay sp l₁).2
             ++ (runEpochs scheme lr_decay (runEpochs scheme lr_decay sp l₁).1 l₂).2) := by
  induction l₁ with
  | nil =>
    intro sp
    simp [runEpochs]
  | cons e rest ih =>
    intro sp
    rcases sp with ⟨s, p⟩
    rcases e with ⟨tl, vl⟩
    simp only [List.cons_append, runEpochs, List.append_eq, ih]

/-- Claim C4 (amended): resuming from the snapshot restores the persisted
epoch counter and loss history exactly (the run continues at epoch `N`, no
completed epoch is re-run), but only `{tr_epoch, iter_mark,
train_val_losses}` are persisted: the plateau threshold and the reported
learning rate restart at their configured initial values.  Consequently a
resumed run reproduces the uninterrupted run's learning-rate-decay decisions
on the same subsequent loss trajectory exactly when no decay event fired
before the snapshot (the threshold still being at its initial value). -/
theorem resume_epoch_counter_and_conditional_decay :
    (∀ (snapshot : SystemState) (options_lr : ℚ),
        (resumeState snapshot options_lr).1 = snapshot)
  ∧ (∀ (scheme : LRScheme) (lr_decay lr0 lr1 : ℚ) (pre suf : List (ℚ × ℚ)),
      (runEpochs scheme lr_decay (⟨0, []⟩, ⟨lr0, REDUCE_LR_CRITERION⟩) pre).1.2.criterion
          = REDUCE_LR_CRITERION →
      (runEpochs scheme lr_decay (⟨0, []⟩, ⟨lr0, REDUCE_LR_CRITERION⟩) (pre ++ suf)).2
        = (runEpochs scheme lr_decay (⟨0, []⟩, ⟨lr0, REDUCE_LR_CRITERION⟩) pre).2
          ++ (runEpochs scheme lr_decay
              (resumeState
                (runEpochs scheme lr_decay
                  (⟨0, []⟩, ⟨lr0, REDUCE_LR_CRITERION⟩) pre).1.1 lr1) suf).2) := by
  constructor
  · intro snapshot options_lr
    rfl
  · intro scheme lr_decay lr0 lr1 pre suf hcrit
    rw [runEpochs_append]
    have hmid : (runEpochs scheme lr_decay (⟨0, []⟩, ⟨lr0, REDUCE_LR_CRITERION⟩) pre).1
        = ((runEpochs scheme lr_decay (⟨0, []⟩, ⟨lr0, REDUCE_LR_CRITERION⟩) pre).1.1,
           (runEpochs scheme lr_decay (⟨0, []⟩, ⟨lr0, REDUCE_LR_CRITERION⟩) pre).1.2) := rfl
    rw [hmid]
    have h := runEpochs_criterion_independent scheme lr_decay suf
      (runEpochs scheme lr_decay (⟨0, []⟩, ⟨lr0, REDUCE_LR_CRITERION⟩) pre).1.1
      (runEpochs scheme lr_decay (⟨0, []⟩, ⟨lr0, REDUCE_LR_CRITERION⟩) pre).1.2
      ⟨lr1, REDUCE_LR_CRITERION⟩ hcrit
    rw [h.2.2]
    rfl

/-- Witness for the amended C4: a one-epoch run (epoch index 0, where the
plateau check is skipped) leaves the threshold at its initial value, so the
resumed continuation reproduces the uninterrupted decisions. -/
theorem resume_epoch_counter_and_conditional_decay_witness :
    ((runEpochs LRScheme.plateau (1/2) (⟨0, []⟩, ⟨1, REDUCE_LR_CRITERION⟩)
        [(1, 1)]).1.2.criterion = REDUCE_LR_CRITERION)
  ∧ ((runEpochs LRScheme.plateau (1/2) (⟨0, []⟩, ⟨1, REDUCE_LR_CRITERION⟩)
        ([(1, 1)] ++ [(5, 1)])).2
      = (runEpochs LRScheme.plateau (1/2) (⟨0, []⟩, ⟨1, REDUCE_LR_CRITERION⟩)
          [(1, 1)]).2
        ++ (runEpochs LRScheme.plateau (1/2)
            (resumeState
              (runEpochs LRScheme.plateau (1/2)
                (⟨0, []⟩, ⟨1, REDUCE_LR_CRITERION⟩) [(1, 1)]).1.1 1) [(5, 1)]).2) := by
  have hcrit : (runEpochs LRScheme.plateau (1/2) (⟨0, []⟩, ⟨1, REDUCE_LR_CRITERION⟩)
      [(1, 1)]).1.2.criterion = REDUCE_LR_CRITERION := by
    simp [runEpochs, epochTail, plateauUpdate]
  exact ⟨hcrit,
    resume_epoch_counter_and_conditional_decay.2 LRScheme.plateau (1/2) 1 1
      [(1, 1)] [(5, 1)] hcrit⟩

/-- Counterexample to C4 as stated: with losses `1, 1, 1.005` the
uninterrupted run decays at epoch 1 (shrinking the threshold to `0.001`)
and then does not decay at epoch 2; resuming from the epoch-2 snapshot
resets the threshold to `0.01`, and the resumed epoch 2 does decay — the
decay decisions and the threshold evolution differ from the uninterrupted
run on the same loss trajectory. -/
theorem resume_decay_divergence_cex :
    (runEpochs LRScheme.plateau (1/2) (⟨0, []⟩, ⟨1, REDUCE_LR_CRITERION⟩)
        [(1, 1), (1, 1), (1.005, 1)]).2.map Prod.fst = [false, true, false]
  ∧ (runEpochs LRScheme.plateau (1/2) (⟨0, []⟩, ⟨1, REDUCE_LR_CRITERION⟩)
        [(1, 1), (1, 1)]).1 = (⟨2, [(1, 1), (1, 1)]⟩, ⟨1/2, 0.001⟩)
  ∧ (runEpochs LRScheme.plateau (1/2)
        (resumeState ⟨2, [(1, 1), (1, 1)]⟩ 1) [(1.005, 1)]).2.map Prod.fst = [true]
  ∧ (0.001 : ℚ) ≠ REDUCE_LR_CRITERION := by
  refine ⟨?_, ?_, ?_, by norm_num [REDUCE_LR_CRITERION]⟩ <;>
    · simp only [runEpochs, epochTail, plateauUpdate, resumeState, qMean, npMin,
        lastSlice, REDUCE_LR_CRITERION, EPOCHS_LR_CRITERION]
      norm_num [abs_of_nonneg, abs_of_nonpos]

/- ===== Claim C2: gradient accumulation scheduler ===== -/

theorem specBatches_nil (sbs : ℕ) : specBatches sbs [] = [] := by
  rw [specBatches]
  simp

theorem specBatches_cons (sbs : ℕ) (l : List ℚ) (h1 : l ≠ []) (h2 : sbs ≠ 0) :
    specBatches sbs l = l.take sbs :: specBatches sbs (l.drop sbs) := by
  rw [specBatches]
  simp [h1, h2]

theorem specSteps_nil (sbs : ℕ) : specSteps sbs [] = [] := by
  simp [specSteps, specBatches_nil]

theorem specSteps_short (sbs : ℕ) (l : List ℚ) (h1 : l ≠ []) (h2 : sbs ≠ 0)
    (hlen : l.length ≤ sbs) :
    specSteps sbs l = [l.sum / (l.length : ℚ)] := by
  unfold specSteps
  rw [specBatches_cons sbs l h1 h2, List.drop_eq_nil_of_le hlen,
    List.take_of_length_le hlen, specBatches_nil]
  simp [batchMean]

theorem specSteps_chunk (sbs : ℕ) (l₁ l₂ : List ℚ) (h2 : sbs ≠ 0)
    (hlen : l₁.length = sbs) :
    specSteps sbs (l₁ ++ l₂) = (l₁.sum / (sbs : ℚ)) :: specSteps sbs l₂ := by
  have h1 : l₁ ≠ [] := by
    intro h
    rw [h] at hlen
    simp at hlen
    exact h2 hlen.symm
  have hne : l₁ ++ l₂ ≠ [] := fun h => h1 (List.append_eq_nil.mp h).1
  unfold specSteps
  rw [specBatches_cons sbs _ hne h2, List.take_left' hlen, List.drop_left' hlen]
  simp [batchMean, hlen]

theorem trainBatchStep_skipped (sbs ntu ep : ℕ) (ae : Bool) (n idx : ℕ)
    (st : AccumState) (dp : ℕ × ℚ) (hskip : skipDP ntu ep dp = true) :
    trainBatchStep sbs ntu ep ae n idx st dp
      = if st.accumulated_examples = 0 then { st with grad := 0 } else st := by
  unfold trainBatchStep
  simp [hskip]

theorem trainBatchStep_processed (sbs ntu ep : ℕ) (n idx : ℕ)
    (st : AccumState) (dp : ℕ × ℚ) (pending : List ℚ)
    (hacc : st.accumulated_examples = pending.length)
    (hgrad : pending ≠ [] → st.grad = pending.sum)
    (hskip : skipDP ntu ep dp = false) :
    trainBatchStep sbs ntu ep false n idx st dp
      = if pending.length + 1 = sbs ∨ idx + 1 = n then
          { accumulated_examples := 0,
            grad := (pending.sum + dp.2) * (1 / ((pending.length + 1 : ℕ) : ℚ)),
            steps := st.steps ++ [(pending.sum + dp.2) * (1 / ((pending.length + 1 : ℕ) : ℚ))] }
        else
          { accumulated_examples := pending.length + 1,
            grad := pending.sum + dp.2, steps := st.steps } := by
  unfold trainBatchStep
  rcases pending with _ | ⟨p0, ps⟩
  · have h0 : st.accumulated_examples = 0 := by simpa using hacc
    simp [hskip, h0]
  · have h0 : ¬st.accumulated_examples = 0 := by simp [hacc]
    have hg := hgrad (by simp)
    simp [hskip, h0, hg, hacc]

theorem trainEpochAux_flush (sbs ntu ep : ℕ) (hsbs : 0 < sbs) :
    ∀ (rest : List (ℕ × ℚ)), ∀ (n idx : ℕ) (st : AccumState) (pending : List ℚ),
      rest ≠ [] →
      idx + rest.length = n →
      st.accumulated_examples = pending.length →
      pending.length < sbs →
      (pending ≠ [] → st.grad = pending.sum) →
      (∀ dp, rest.getLast? = some dp → skipDP ntu ep dp = false) →
      (trainEpochAux sbs ntu ep false n idx st rest).steps
          = st.steps ++ specSteps sbs (pending ++ processedGrads ntu ep rest)
        ∧ (trainEpochAux sbs ntu ep false n idx st rest).accumulated_examples = 0 := by
  intro rest
  induction rest with
  | nil =>
    intro n idx st pending hne
    exact absurd rfl hne
  | cons dp tl ih =>
    intro n idx st pending _ hn hacc hlt hgrad hlast
    rcases tl with _ | ⟨r0, rtail⟩
    · -- dp is the last data point of the epoch
      have hidx : idx + 1 = n := by simpa using hn
      have hskip : skipDP ntu ep dp = false := hlast dp (by simp)
      have hpg : processedGrads ntu ep [dp] = [dp.2] := by
        simp [processedGrads, hskip]
      have hstep : trainEpochAux sbs ntu ep false n idx st [dp]
          = trainBatchStep sbs ntu ep false n idx st dp := rfl
      rw [hstep, trainBatchStep_processed sbs ntu ep n idx st dp pending hacc hgrad hskip,
        if_pos (Or.inr hidx), hpg]
      refine ⟨?_, rfl⟩
      rw [specSteps_short sbs (pending ++ [dp.2]) (by simp) (by omega)
        (by simp; omega)]
      simp only [List.sum_append, List.sum_cons, List.sum_nil, add_zero,
        List.length_append, List.length_cons, List.length_nil, Nat.cast_add,
        Nat.cast_one, Nat.cast_zero, zero_add, mul_one_div]
    · -- at least one more data point follows
      have hlast' : ∀ d, (r0 :: rtail).getLast? = some d → skipDP ntu ep d = false := by
        intro d hd
        exact hlast d (by rw [List.getLast?_cons_cons]; exact hd)
      have hn' : (idx + 1) + (r0 :: rtail).length = n := by
        simp only [List.length_cons] at hn ⊢
        omega
      have hidxne : ¬idx + 1 = n := by
        simp only [List.length_cons] at hn
        omega
      cases hsk : skipDP ntu ep dp with
      | true =>
        have hstep : trainEpochAux sbs ntu ep false n idx st (dp :: r0 :: rtail)
            = trainEpochAux sbs ntu ep false n (idx + 1)
                (trainBatchStep sbs ntu ep false n idx st dp) (r0 :: rtail) := rfl
        rw [hstep, trainBatchStep_skipped sbs ntu ep false n idx st dp hsk]
        have hacc1 : (if st.accumulated_examples = 0 then { st with grad := 0 }
            else st).accumulated_examples = pending.length := by
          split <;> simpa using hacc
        have hgrad1 : pending ≠ [] →
            (if st.accumulated_examples = 0 then { st with grad := 0 }
              else st).grad = pending.sum := by
          intro hp
          have hne0 : ¬st.accumulated_examples = 0 := by
            rw [hacc]
            simpa using hp
          rw [if_neg hne0]
          exact hgrad hp
        have hres := ih n (idx + 1) _ pending (by simp) hn' hacc1 hlt hgrad1 hlast'
        have hsteps1 : (if st.accumulated_examples = 0 then { st with grad := 0 }
            else st).steps = st.steps := by split <;> rfl
        have hpg : processedGrads ntu ep (dp :: r0 :: rtail)
            = processedGrads ntu ep (r0 :: rtail) := by
          simp [processedGrads, hsk]
        rw [hpg]
        exact ⟨by rw [hres.1, hsteps1], hres.2⟩
      | false =>
        have hstep : trainEpochAux sbs ntu ep false n idx st (dp :: r0 :: rtail)
            = trainEpochAux sbs ntu ep false n (idx + 1)
                (trainBatchStep sbs ntu ep false n idx st dp) (r0 :: rtail) := rfl
        have hpg : processedGrads ntu ep (dp :: r0 :: rtail)
            = dp.2 :: processedGrads ntu ep (r0 :: rtail) := by
          simp [processedGrads, hsk]
        rw [hstep, trainBatchStep_processed sbs ntu ep n idx st dp pending hacc hgrad hsk,
          hpg]
        by_cases hfull : pending.length + 1 = sbs
        · rw [if_pos (Or.inl hfull)]
          have hres := ih n (idx + 1)
            ⟨0, (pending.sum + dp.2) * (1 / ((pending.length + 1 : ℕ) : ℚ)),
              st.steps ++ [(pending.sum + dp.2) * (1 / ((pending.length + 1 : ℕ) : ℚ))]⟩
            [] (by simp) hn' rfl hsbs (fun h => absurd rfl h) hlast'
          refine ⟨?_, hres.2⟩
          rw [hres.1]
          have hsplit : pending ++ dp.2 :: processedGrads ntu ep (r0 :: rtail)
              = (pending ++ [dp.2]) ++ processedGrads ntu ep (r0 :: rtail) := by
            simp
          rw [hsplit, specSteps_chunk sbs (pending ++ [dp.2]) _ (by omega)
            (by simp [hfull])]
          simp only [List.nil_append, List.append_assoc, List.cons_append,
            List.sum_append, List.sum_cons, List.sum_nil, add_zero, hfull,
            mul_one_div]
        · rw [if_neg (not_or.mpr ⟨hfull, hidxne⟩)]
          have hres := ih n (idx + 1)
            ⟨pending.length + 1, pending.sum + dp.2, st.steps⟩
            (pending ++ [dp.2]) (by simp) hn' (by simp)
            (by simp only [List.length_append, List.length_cons, List.length_nil]; omega)
            (fun _ => by simp) hlast'
          refine ⟨?_, hres.2⟩
          rw [hres.1]
          simp

/-- Claim C2 (amended): in the training inner loop, gradients are zeroed at
loop entry exactly when the accumulated-patient count is 0; for a processed
(non-skipped) patient an optimizer step is recorded exactly when the count
reaches `subj_batch_size` or the patient is the last data point of the
epoch; and provided the last data point of the epoch is not skipped by the
curriculum, the sequence of optimizer-step gradients equals the means (not
sums) of the consecutive mini-batches of the processed patients' gradients
— one step per full batch plus one flushed partial step at epoch end — and
the epoch ends with the counter flushed to 0.  (If the last data point is
curriculum-skipped, the epoch-end flush does not happen; see the
counterexample.) -/
theorem grad_accumulation_schedule :
    (∀ (sbs ntu ep : ℕ) (ae : Bool) (n idx : ℕ) (st : AccumState) (dp : ℕ × ℚ),
        skipDP ntu ep dp = true →
        trainBatchStep sbs ntu ep ae n idx st dp
          = if st.accumulated_examples = 0 then { st with grad := 0 } else st)
  ∧ (∀ (sbs ntu ep : ℕ) (ae : Bool) (n idx : ℕ) (st : AccumState) (dp : ℕ × ℚ),
        skipDP ntu ep dp = false →
        ((trainBatchStep sbs ntu ep ae n idx st dp).steps.length
            = st.steps.length + 1 ↔
          (st.accumulated_examples + 1 = sbs ∨ idx + 1 = n)))
  ∧ (∀ (sbs ntu ep : ℕ), 0 < sbs →
      ∀ (data : List (ℕ × ℚ)), data ≠ [] →
        (∀ dp, data.getLast? = some dp → skipDP ntu ep dp = false) →
        (trainEpoch sbs ntu ep false data).steps
            = specSteps sbs (processedGrads ntu ep data)
          ∧ (trainEpoch sbs ntu ep false data).accumulated_examples = 0) := by
  refine ⟨trainBatchStep_skipped, ?_, ?_⟩
  · intro sbs ntu ep ae n idx st dp hskip
    unfold trainBatchStep
    simp only [hskip, Bool.false_eq_true, if_false]
    have hacc : (if ae then (if st.accumulated_examples = 0 then { st with grad := 0 } else st)
        else { (if st.accumulated_examples = 0 then { st with grad := 0 } else st)
          with grad := (if st.accumulated_examples = 0 then { st with grad := 0 }
            else st).grad + dp.2 }).accumulated_examples = st.accumulated_examples := by
      split <;> (split <;> rfl)
    have hsteps : (if ae then (if st.accumulated_examples = 0 then { st with grad := 0 } else st)
        else { (if st.accumulated_examples = 0 then { st with grad := 0 } else st)
          with grad := (if st.accumulated_examples = 0 then { st with grad := 0 }
            else st).grad + dp.2 }).steps = st.steps := by
      split <;> (split <;> rfl)
    rw [hacc, hsteps]
    split_ifs with hcond <;> simp [hcond]
  · intro sbs ntu ep hsbs data hne hlast
    have key := trainEpochAux_flush sbs ntu ep hsbs data data.length 0 ⟨0, 0, []⟩ []
      hne (by simp) rfl hsbs (fun h => absurd rfl h) hlast
    constructor
    · simpa [trainEpoch] using key.1
    · simpa [trainEpoch] using key.2

/-- Witness for the amended C2: two healthy patients, batch size 2, no
curriculum exclusion — the epoch takes exactly one optimizer step whose
gradient is the mean `(1 + 3)/2 = 2` of the two per-patient gradients. -/
theorem grad_accumulation_schedule_witness :
    0 < 2 ∧ ([((0 : ℕ), (1 : ℚ)), (0, 3)] ≠ [])
  ∧ (∀ dp, [((0 : ℕ), (1 : ℚ)), (0, 3)].getLast? = some dp → skipDP 0 0 dp = false)
  ∧ ((trainEpoch 2 0 0 false [(0, 1), (0, 3)]).steps
        = specSteps 2 (processedGrads 0 0 [(0, 1), (0, 3)])
      ∧ (trainEpoch 2 0 0 false [(0, 1), (0, 3)]).accumulated_examples = 0) := by
  have hlast : ∀ dp, [((0 : ℕ), (1 : ℚ)), (0, 3)].getLast? = some dp →
      skipDP 0 0 dp = false := by
    intro dp h
    simp only [List.getLast?_cons_cons, List.getLast?_singleton, Option.some.injEq] at h
    rw [← h]
    rfl
  exact ⟨by norm_num, by simp, hlast,
    grad_accumulation_schedule.2.2 2 0 0 (by norm_num) [(0, 1), (0, 3)] (by simp) hlast⟩

/-- Counterexample to C2 as stated: a two-patient epoch `[healthy, sick]`
with `subj_batch_size = 2` and the curriculum active (`neg_train_until = 1`,
epoch 0) skips the sick patient; because the epoch-end flush is checked only
for data points that survive the curriculum `continue`, the epoch ends with
no optimizer step at all and the counter left at 1 — not with "exactly one
flushed (possibly partial) step", which would have been the mean batch `[1]`
of the single accumulated patient. -/
theorem grad_accumulation_epoch_end_cex :
    (trainEpoch 2 1 0 false [(0, 1), (1, 5)]).steps = []
  ∧ (trainEpoch 2 1 0 false [(0, 1), (1, 5)]).accumulated_examples = 1
  ∧ specSteps 2 (processedGrads 1 0 [(0, 1), (1, 5)]) = [1] := by
  refine ⟨rfl, rfl, ?_⟩
  have hpg : processedGrads 1 0 [(0, 1), (1, 5)] = [1] := rfl
  rw [hpg, specSteps_short 2 [1] (by simp) (by omega) (by simp)]
  norm_num

/- ===== Helper lemmas for the closure ===== -/

theorem bceMean_singleton (x t : ℝ) : bceMean [x] [t] = some (bceLogits x t) := by
  simp [bceMean]

theorem zip_replicate_map (t : ℝ) :
    ∀ (l : List ℝ),
      ((l.zip (List.replicate l.length t)).map fun st => bceLogits st.1 st.2)
        = l.map (fun x => bceLogits x t) := by
  intro l
  induction l with
  | nil => rfl
  | cons x xs ih => simp [List.replicate_succ, ih]

theorem bceMean_replicate (l : List ℝ) (t : ℝ) (h : l ≠ []) :
    bceMean l (List.replicate l.length t)
      = some ((l.map fun x => bceLogits x t).sum / l.length) := by
  simp [bceMean, h, zip_replicate_map]

/- ===== Claim C10: gate-target selection under the T flag ===== -/

/-- Claim C10: with the `T` flag active the gate target is the image expert
(index 1, hence `sick_target` as the BCE label for the gate weight) exactly
when the image score is strictly smaller than the attribute score for a
healthy patient, or strictly larger for a sick patient; on an exact tie both
cases pick the attribute expert (index 0, hence `healthy_target`), because
the attribute score sits at index 0 of the `argmin`/`argmax` candidate list
and `np.argmin`/`np.argmax` return the first extremal index. -/
theorem gate_target_selection :
    (∀ (α : Type) [LinearOrder α] (img attr : α),
        (get_gate_target img attr 0 = some 1 ↔ img < attr)
      ∧ (get_gate_target img attr 1 = some 1 ↔ attr < img)
      ∧ (img = attr →
          get_gate_target img attr 0 = some 0 ∧ get_gate_target img attr 1 = some 0))
  ∧ (∀ (opts : Options) (hG : 'G' ∈ opts.model.system_mode)
        (hT : 'T' ∈ opts.model.system_mode) (imgs : List ℝ) (i a p w re sp : ℝ)
        (test ae : Bool),
        ((closure opts bceMean ⟨imgs, [i], [a], [p], w, re, sp⟩ 0 test ae).bind
            LossBundle.gate_target
          = some (if i < a then SICK_TARGET else HEALTHY_TARGET))
      ∧ ((closure opts bceMean ⟨imgs, [i], [a], [p], w, re, sp⟩ 1 test ae).bind
            LossBundle.gate_target
          = some (if a < i then SICK_TARGET else HEALTHY_TARGET))) := by
  constructor
  · intro α inst img attr
    refine ⟨?_, ?_, ?_⟩
    · rw [show get_gate_target img attr 0
          = some (if attr ≤ img then 0 else 1) from rfl]
      rcases le_or_lt attr img with hle | hlt
      · rw [if_pos hle]
        simp [not_lt.mpr hle]
      · rw [if_neg (not_le.mpr hlt)]
        simp [hlt]
    · rw [show get_gate_target img attr 1
          = some (if img > attr then 1 else 0) from rfl]
      rcases lt_or_le attr img with hgt | hle
      · rw [if_pos hgt]
        simp [hgt]
      · rw [if_neg (not_lt.mpr hle)]
        simp [not_lt.mpr hle]
    · intro heq
      subst heq
      constructor
      · rw [show get_gate_target img img 0
            = some (if img ≤ img then 0 else 1) from rfl, if_pos le_rfl]
      · rw [show get_gate_target img img 1
            = some (if img > img then 1 else 0) from rfl, if_neg (lt_irrefl img)]
  · intro opts hG hT imgs i a p w re sp test ae
    have hmode : 'G' ∈ opts.model.system_mode ∨ 'M' ∈ opts.model.system_mode :=
      Or.inl hG
    constructor
    · simp only [closure, hmode, if_true, closureGM, hG, List.replicate,
        bceMean_singleton, item, get_gate_target, hT, Option.some_bind, reduceIte]
      split_ifs with h1 h2 h2 <;> simp_all [not_le]
    · simp only [closure, hmode, if_true, closureGM, hG, List.replicate,
        bceMean_singleton, item, get_gate_target, hT, Option.some_bind, reduceIte]
      split_ifs with h1 h2 h2 <;> simp_all [not_le]

/-- Witness for C10 at concrete inputs: mode `GT`, a healthy patient with
image score 0 and attribute score 1 — the image score is strictly smaller,
so the gate target is the image expert (`sick_target`). -/
theorem gate_target_selection_witness :
    ('G' ∈ (⟨⟨1, 1, 1, 1, 1, 1, LossKind.bce⟩, ⟨['G', 'T']⟩⟩ : Options).model.system_mode)
  ∧ ('T' ∈ (⟨⟨1, 1, 1, 1, 1, 1, LossKind.bce⟩, ⟨['G', 'T']⟩⟩ : Options).model.system_mode)
  ∧ ((closure (⟨⟨1, 1, 1, 1, 1, 1, LossKind.bce⟩, ⟨['G', 'T']⟩⟩ : Options) bceMean
        ⟨[], [0], [1], [1/2], 1/2, 0, 0⟩ 0 false false).bind LossBundle.gate_target
      = some (if (0 : ℝ) < 1 then SICK_TARGET else HEALTHY_TARGET)) := by
  have hG : 'G' ∈ (⟨⟨1, 1, 1, 1, 1, 1, LossKind.bce⟩,
      ⟨['G', 'T']⟩⟩ : Options).model.system_mode := by decide
  have hT : 'T' ∈ (⟨⟨1, 1, 1, 1, 1, 1, LossKind.bce⟩,
      ⟨['G', 'T']⟩⟩ : Options).model.system_mode := by decide
  exact ⟨hG, hT,
    (gate_target_selection.2 _ hG hT [] 0 1 (1/2) (1/2) 0 0 false false).1⟩

/- ===== Claim C6: mode G negative log-likelihood ===== -/

/-- Claim C6: under mode `G` (the gate-training add-on `T` not set) the total
loss is `-scale_1 * log p` for a sick patient and `-scale_0 * log (1 - p)`
for a healthy patient, where `p` is the fused score; for every fused score
in `(0, 1)` and positive scale this total is strictly positive (finiteness
is automatic in the real-number model), and it strictly increases as the
fused score moves away from the correct class value — decreasing `p` for a
sick patient, increasing `p` for a healthy one. -/
theorem mode_G_total_positive_monotone (opts : Options)
    (hG : 'G' ∈ opts.model.system_mode) (hT : 'T' ∉ opts.model.system_mode)
    (imgs : List ℝ) (g a w re sp : ℝ) (test ae : Bool) :
    (∀ p : ℝ,
        ((closure opts bceMean ⟨imgs, [g], [a], [p], w, re, sp⟩ 1 test ae).map
            LossBundle.total
          = some (-1 * opts.training.scale_1 * Real.log p))
      ∧ ((closure opts bceMean ⟨imgs, [g], [a], [p], w, re, sp⟩ 0 test ae).map
            LossBundle.total
          = some (-1 * opts.training.scale_0 * Real.log (1 - p))))
  ∧ (∀ p : ℝ, 0 < p → p < 1 →
        (0 < opts.training.scale_1 →
          0 < -1 * opts.training.scale_1 * Real.log p)
      ∧ (0 < opts.training.scale_0 →
          0 < -1 * opts.training.scale_0 * Real.log (1 - p)))
  ∧ (∀ p q : ℝ, 0 < p → p < 1 → 0 < q → q < 1 → p < q →
        (0 < opts.training.scale_1 →
          -1 * opts.training.scale_1 * Real.log q
            < -1 * opts.training.scale_1 * Real.log p)
      ∧ (0 < opts.training.scale_0 →
          -1 * opts.training.scale_0 * Real.log (1 - p)
            < -1 * opts.training.scale_0 * Real.log (1 - q))) := by
  have hmode : 'G' ∈ opts.model.system_mode ∨ 'M' ∈ opts.model.system_mode :=
    Or.inl hG
  refine ⟨?_, ?_, ?_⟩
  · intro p
    constructor
    · simp [closure, hmode, closureGM, hG, hT, List.replicate,
        bceMean_singleton, item]
    · simp [closure, hmode, closureGM, hG, hT, List.replicate,
        bceMean_singleton, item]
  · intro p hp hp1
    constructor
    · intro hs
      have hlog := Real.log_neg hp hp1
      have hpos := mul_pos hs (neg_pos.mpr hlog)
      linarith
    · intro hs
      have hlog := Real.log_neg (by linarith : (0 : ℝ) < 1 - p)
        (by linarith : (1 : ℝ) - p < 1)
      have hpos := mul_pos hs (neg_pos.mpr hlog)
      linarith
  · intro p q hp hp1 hq hq1 hpq
    constructor
    · intro hs
      have hlt := Real.log_lt_log hp hpq
      have := mul_lt_mul_of_pos_left hlt hs
      linarith
    · intro hs
      have hlt := Real.log_lt_log (by linarith : (0 : ℝ) < 1 - q)
        (by linarith : (1 : ℝ) - q < 1 - p)
      have := mul_lt_mul_of_pos_left hlt hs
      linarith

/-- Witness for C6 at concrete inputs: mode `G`, unit scales, fused score
`1/2` — the hypotheses hold and the loss is strictly positive. -/
theorem mode_G_total_positive_monotone_witness :
    ('G' ∈ (['G'] : List Char)) ∧ ('T' ∉ (['G'] : List Char))
  ∧ ((0 : ℝ) < 1/2) ∧ ((1/2 : ℝ) < 1)
  ∧ ((0 < (1 : ℝ) → 0 < -1 * (1 : ℝ) * Real.log (1/2))
     ∧ (0 < (1 : ℝ) → 0 < -1 * (1 : ℝ) * Real.log (1 - 1/2))) :=
  ⟨by decide, by decide, by norm_num, by norm_num,
    (mode_G_total_positive_monotone ⟨⟨1, 1, 1, 1, 1, 1, LossKind.bce⟩, ⟨['G']⟩⟩
      (by decide) (by decide) [] 0 0 0 0 0 false false).2.1 (1/2)
      (by norm_num) (by norm_num)⟩

/- ===== Claim C7: mode M Gaussian-mixture likelihood ===== -/

/-- Claim C7: under mode `M` (without `G`, which would take precedence, and
without the gate add-on `T`) the total loss is `-scale * log (pred_prob)`
where `pred_prob` is the Gaussian-mixture likelihood
`NORM_FACTOR * (w * exp(-0.5*(i - t)^2) + (1-w) * exp(-0.5*(a - t)^2))`,
with the source's sick-class noisy target `NOISY_POS_TARGET` (the literal
for `log (2 + sqrt 3)`) and healthy-class target `NOISY_NEG_TARGET` (the
literal for `log (2 - sqrt 3)`); and for every gate weight `w ∈ [0, 1]` and
all real scores, `pred_prob` lies in `(0, NORM_FACTOR]`. -/
theorem mode_M_mixture_formula_and_range (opts : Options)
    (hM : 'M' ∈ opts.model.system_mode) (hG : 'G' ∉ opts.model.system_mode)
    (hT : 'T' ∉ opts.model.system_mode)
    (imgs : List ℝ) (i a p w re sp : ℝ) (test ae : Bool) :
    ((closure opts bceMean ⟨imgs, [i], [a], [p], w, re, sp⟩ 1 test ae).map
        LossBundle.total
      = some (-1 * opts.training.scale_1
          * Real.log (pred_prob w i a NOISY_POS_TARGET)))
  ∧ ((closure opts bceMean ⟨imgs, [i], [a], [p], w, re, sp⟩ 0 test ae).map
        LossBundle.total
      = some (-1 * opts.training.scale_0
          * Real.log (pred_prob w i a NOISY_NEG_TARGET)))
  ∧ (∀ (w' i' a' t : ℝ), 0 ≤ w' → w' ≤ 1 →
      0 < pred_prob w' i' a' t ∧ pred_prob w' i' a' t ≤ NORM_FACTOR) := by
  have hmode : 'G' ∈ opts.model.system_mode ∨ 'M' ∈ opts.model.system_mode :=
    Or.inr hM
  have hNF : (0 : ℝ) < NORM_FACTOR := by norm_num [NORM_FACTOR]
  refine ⟨?_, ?_, ?_⟩
  · simp [closure, hmode, closureGM, hG, hM, hT, List.replicate,
      bceMean_singleton, item]
  · simp [closure, hmode, closureGM, hG, hM, hT, List.replicate,
      bceMean_singleton, item]
  · intro w' i' a' t hw0 hw1
    have he1 := Real.exp_pos (-0.5 * (i' - t) ^ 2)
    have he2 := Real.exp_pos (-0.5 * (a' - t) ^ 2)
    constructor
    · unfold pred_prob
      apply mul_pos hNF
      rcases lt_or_le w' 1 with h | h
      · have hpos2 : 0 < (1 - w') * Real.exp (-0.5 * (a' - t) ^ 2) :=
          mul_pos (by linarith) he2
        have hnn1 : 0 ≤ w' * Real.exp (-0.5 * (i' - t) ^ 2) :=
          mul_nonneg hw0 he1.le
        linarith
      · have hw : w' = 1 := le_antisymm hw1 h
        rw [hw]
        simpa using he1
    · have h1 : Real.exp (-0.5 * (i' - t) ^ 2) ≤ 1 := by
        rw [Real.exp_le_one_iff]
        nlinarith [sq_nonneg (i' - t)]
      have h2 : Real.exp (-0.5 * (a' - t) ^ 2) ≤ 1 := by
        rw [Real.exp_le_one_iff]
        nlinarith [sq_nonneg (a' - t)]
      have hsum : w' * Real.exp (-0.5 * (i' - t) ^ 2)
          + (1 - w') * Real.exp (-0.5 * (a' - t) ^ 2) ≤ 1 := by
        have b1 : w' * Real.exp (-0.5 * (i' - t) ^ 2) ≤ w' * 1 :=
          mul_le_mul_of_nonneg_left h1 hw0
        have b2 : (1 - w') * Real.exp (-0.5 * (a' - t) ^ 2) ≤ (1 - w') * 1 :=
          mul_le_mul_of_nonneg_left h2 (by linarith)
        linarith
      unfold pred_prob
      calc NORM_FACTOR * (w' * Real.exp (-0.5 * (i' - t) ^ 2)
              + (1 - w') * Real.exp (-0.5 * (a' - t) ^ 2))
          ≤ NORM_FACTOR * 1 := mul_le_mul_of_nonneg_left hsum hNF.le
        _ = NORM_FACTOR := mul_one _

/-- Witness for C7 at concrete inputs: mode `M`, gate weight `1/2` — the
hypotheses hold and the mixture likelihood lies in `(0, NORM_FACTOR]`. -/
theorem mode_M_mixture_formula_and_range_witness :
    ('M' ∈ (['M'] : List Char)) ∧ ('G' ∉ (['M'] : List Char))
  ∧ ('T' ∉ (['M'] : List Char)) ∧ ((0 : ℝ) ≤ 1/2) ∧ ((1/2 : ℝ) ≤ 1)
  ∧ (0 < pred_prob (1/2) 0 0 0 ∧ pred_prob (1/2) 0 0 0 ≤ NORM_FACTOR) :=
  ⟨by decide, by decide, by decide, by norm_num, by norm_num,
    (mode_M_mixture_formula_and_range ⟨⟨1, 1, 1, 1, 1, 1, LossKind.bce⟩, ⟨['M']⟩⟩
      (by decide) (by decide) (by decide) [] 0 0 0 0 0 0 false false).2.2
      (1/2) 0 0 0 (by norm_num) (by norm_num)⟩

/- ===== Claim C1: mode I healthy-patient image loss, train vs test ===== -/

theorem closureAdd_imgs_healthy_train (opts : Options)
    (hG : 'G' ∉ opts.model.system_mode) (hM : 'M' ∉ opts.model.system_mode)
    (hI : 'I' ∈ opts.model.system_mode) (hb : opts.training.loss = LossKind.bce)
    (aggList : List ℝ) (hne : aggList ≠ []) (imgs : List ℝ) (a ps w re sp : ℝ) :
    (closure opts bceMean ⟨imgs, aggList, [a], [ps], w, re, sp⟩ 0 false false).bind
        LossBundle.imgs
      = some (opts.training.scale_imgs * (opts.training.scale_0 *
          ((aggList.map fun x => bceLogits x HEALTHY_TARGET).sum / aggList.length))) := by
  have hor : ¬('G' ∈ opts.model.system_mode ∨ 'M' ∈ opts.model.system_mode) := by
    simp [hG, hM]
  by_cases hA : 'A' ∈ opts.model.system_mode <;>
    by_cases hD : 'D' ∈ opts.model.system_mode <;>
      simp [closure, hor, closureAdd, hI, hA, hD, hb,
        bceMean_replicate aggList HEALTHY_TARGET hne, bceMean_singleton, item]

theorem closureAdd_imgs_healthy_test (opts : Options)
    (hG : 'G' ∉ opts.model.system_mode) (hM : 'M' ∉ opts.model.system_mode)
    (hI : 'I' ∈ opts.model.system_mode) (hb : opts.training.loss = LossKind.bce)
    (agg : ℝ) (imgs : List ℝ) (a ps w re sp : ℝ) :
    (closure opts bceMean ⟨imgs, [agg], [a], [ps], w, re, sp⟩ 0 true false).bind
        LossBundle.imgs
      = some (opts.training.scale_imgs
          * (opts.training.scale_0 * bceLogits agg HEALTHY_TARGET)) := by
  have hor : ¬('G' ∈ opts.model.system_mode ∨ 'M' ∈ opts.model.system_mode) := by
    simp [hG, hM]
  by_cases hA : 'A' ∈ opts.model.system_mode <;>
    by_cases hD : 'D' ∈ opts.model.system_mode <;>
      simp [closure, hor, closureAdd, hI, hA, hD, hb, bceMean_singleton, item]

/-- Claim C1: for every healthy-labeled patient (label 0) under mode `I`
(with the `bce` loss family, whose `loss_fn` is the mean binary cross
entropy with logits), the training-time image loss (`test=False`, where the
model's `agg_img_score` holds every per-image score) averages the per-image
losses against the healthy target over all images, while the test-time image
loss (`test=True`, where `agg_img_score` is the single aggregated score)
uses only that aggregated score with the same healthy target; the two differ
in general, exhibited at per-image scores `[0, 1]` with aggregated score
`0`. -/
theorem mode_I_healthy_train_vs_test :
    (∀ (opts : Options), 'G' ∉ opts.model.system_mode →
        'M' ∉ opts.model.system_mode → 'I' ∈ opts.model.system_mode →
        opts.training.loss = LossKind.bce →
        ∀ (imgScores : List ℝ), imgScores ≠ [] → ∀ (agg a ps w re sp : ℝ),
        ((closure opts bceMean
            ⟨imgScores, modelAggImgScore imgScores agg false, [a], [ps], w, re, sp⟩
            0 false false).bind LossBundle.imgs
          = some (opts.training.scale_imgs * (opts.training.scale_0 *
              ((imgScores.map fun x => bceLogits x HEALTHY_TARGET).sum
                / imgScores.length))))
      ∧ ((closure opts bceMean
            ⟨imgScores, modelAggImgScore imgScores agg true, [a], [ps], w, re, sp⟩
            0 true false).bind LossBundle.imgs
          = some (opts.training.scale_imgs
              * (opts.training.scale_0 * bceLogits agg HEALTHY_TARGET))))
  ∧ (∃ (opts : Options) (imgScores : List ℝ) (agg a ps w re sp : ℝ),
      (closure opts bceMean
          ⟨imgScores, modelAggImgScore imgScores agg false, [a], [ps], w, re, sp⟩
          0 false false).bind LossBundle.imgs
        ≠ (closure opts bceMean
          ⟨imgScores, modelAggImgScore imgScores agg true, [a], [ps], w, re, sp⟩
          0 true false).bind LossBundle.imgs) := by
  have hmodel_train : ∀ (l : List ℝ) (g : ℝ), modelAggImgScore l g false = l :=
    fun l g => rfl
  have hmodel_test : ∀ (l : List ℝ) (g : ℝ), modelAggImgScore l g true = [g] :=
    fun l g => rfl
  constructor
  · intro opts hG hM hI hb imgScores hne agg a ps w re sp
    rw [hmodel_train, hmodel_test]
    exact ⟨closureAdd_imgs_healthy_train opts hG hM hI hb imgScores hne imgScores
        a ps w re sp,
      closureAdd_imgs_healthy_test opts hG hM hI hb agg imgScores a ps w re sp⟩
  · refine ⟨⟨⟨1, 1, 1, 1, 1, 1, LossKind.bce⟩, ⟨['I']⟩⟩, [0, 1], 0, 0, 0, 0, 0, 0, ?_⟩
    rw [hmodel_train, hmodel_test]
    rw [closureAdd_imgs_healthy_train _ (by decide) (by decide) (by decide) rfl
        [0, 1] (by simp) [0, 1] 0 0 0 0 0,
      closureAdd_imgs_healthy_test _ (by decide) (by decide) (by decide) rfl
        0 [0, 1] 0 0 0 0 0]
    have hH : HEALTHY_TARGET = 0 := by norm_num [HEALTHY_TARGET, SICK_TARGET]
    have hlt : Real.log 2 < Real.log (1 + Real.exp 1) := by
      apply Real.log_lt_log (by norm_num)
      have := Real.add_one_le_exp (1 : ℝ)
      linarith
    simp only [Ne, Option.some.injEq, List.map_cons, List.map_nil, List.sum_cons,
      List.sum_nil, List.length_cons, List.length_nil, bceLogits, hH]
    intro hcon
    rw [Real.exp_zero] at hcon
    norm_num at hcon
    linarith

/-- Witness for C1 at concrete inputs: mode `I`, `bce` loss, one per-image
score `0` and aggregated score `0`. -/
theorem mode_I_healthy_train_vs_test_witness :
    ('G' ∉ (['I'] : List Char)) ∧ ('M' ∉ (['I'] : List Char))
  ∧ ('I' ∈ (['I'] : List Char)) ∧ (([(0 : ℝ)] : List ℝ) ≠ [])
  ∧ ((closure (⟨⟨1, 1, 1, 1, 1, 1, LossKind.bce⟩, ⟨['I']⟩⟩ : Options) bceMean
        ⟨[0], modelAggImgScore [0] 0 false, [0], [0], 0, 0, 0⟩
        0 false false).bind LossBundle.imgs
      = some ((1 : ℝ) * (1 *
          (([(0 : ℝ)].map fun x => bceLogits x HEALTHY_TARGET).sum
            / ([(0 : ℝ)] : List ℝ).length))))
  ∧ ((closure (⟨⟨1, 1, 1, 1, 1, 1, LossKind.bce⟩, ⟨['I']⟩⟩ : Options) bceMean
        ⟨[0], modelAggImgScore [0] 0 true, [0], [0], 0, 0, 0⟩
        0 true false).bind LossBundle.imgs
      = some ((1 : ℝ) * (1 * bceLogits 0 HEALTHY_TARGET))) :=
  ⟨by decide, by decide, by decide, by simp,
    (mode_I_healthy_train_vs_test.1 ⟨⟨1, 1, 1, 1, 1, 1, LossKind.bce⟩, ⟨['I']⟩⟩
      (by decide) (by decide) (by decide) rfl [0] (by simp) 0 0 0 0 0 0).1,
    (mode_I_healthy_train_vs_test.1 ⟨⟨1, 1, 1, 1, 1, 1, LossKind.bce⟩, ⟨['I']⟩⟩
      (by decide) (by decide) (by decide) rfl [0] (by simp) 0 0 0 0 0 0).2⟩

/- ===== Claim C8: autoencoder_only and the total loss ===== -/

theorem closure_GM_ignores_test_ae (opts : Options)
    (lossFn : List ℝ → List ℝ → Option ℝ) (mo : ModelOutput) (p_label : ℕ)
    (hGM : 'G' ∈ opts.model.system_mode ∨ 'M' ∈ opts.model.system_mode)
    (test ae test' ae' : Bool) :
    closure opts lossFn mo p_label test ae
      = closure opts lossFn mo p_label test' ae' := by
  simp [closure, hGM]

theorem closureAdd_total_ae_only (opts : Options)
    (hG : 'G' ∉ opts.model.system_mode) (hM : 'M' ∉ opts.model.system_mode)
    (hb : opts.training.loss = LossKind.bce)
    (imgs : List ℝ) (g a ps w re sp : ℝ) (label : ℕ)
    (hl : label = 0 ∨ label = 1) (test : Bool) :
    (closure opts bceMean ⟨imgs, [g], [a], [ps], w, re, sp⟩ label test true).map
        LossBundle.total
      = some (if 'D' ∈ opts.model.system_mode then
          opts.training.scale_recon * re + opts.training.scale_sparse * sp
        else 0) := by
  have hor : ¬('G' ∈ opts.model.system_mode ∨ 'M' ∈ opts.model.system_mode) := by
    simp [hG, hM]
  rcases hl with rfl | rfl <;>
    by_cases hI : 'I' ∈ opts.model.system_mode <;>
      by_cases hA : 'A' ∈ opts.model.system_mode <;>
        by_cases hD : 'D' ∈ opts.model.system_mode <;>
          cases test <;>
            simp [closure, hor, closureAdd, hI, hA, hD, hb,
              bceMean_singleton, item]

/-- Claim C8 (amended): with `autoencoder_only` true, under a system mode
containing neither `G` nor `M`, the returned total contains only the
reconstruction and sparsity terms (when `D` is active; zero otherwise) —
the image and attribute branch losses are computed but excluded from the
total.  Under `G` or `M` however, the early-return branch reads neither
`autoencoder_only` nor `test`, so the total remains the mixture
classification loss regardless of the autoencoder-only phase. -/
theorem ae_only_total_reconstruction_only :
    (∀ (opts : Options), 'G' ∉ opts.model.system_mode →
        'M' ∉ opts.model.system_mode → opts.training.loss = LossKind.bce →
        ∀ (imgs : List ℝ) (g a ps w re sp : ℝ) (label : ℕ),
          (label = 0 ∨ label = 1) → ∀ (test : Bool),
        (closure opts bceMean ⟨imgs, [g], [a], [ps], w, re, sp⟩ label test true).map
            LossBundle.total
          = some (if 'D' ∈ opts.model.system_mode then
              opts.training.scale_recon * re + opts.training.scale_sparse * sp
            else 0))
  ∧ (∀ (opts : Options) (lossFn : List ℝ → List ℝ → Option ℝ) (mo : ModelOutput)
        (p_label : ℕ),
        ('G' ∈ opts.model.system_mode ∨ 'M' ∈ opts.model.system_mode) →
        ∀ (test : Bool),
        closure opts lossFn mo p_label test true
          = closure opts lossFn mo p_label test false) :=
  ⟨fun opts hG hM hb imgs g a ps w re sp label hl test =>
      closureAdd_total_ae_only opts hG hM hb imgs g a ps w re sp label hl test,
    fun opts lossFn mo p_label hGM test =>
      closure_GM_ignores_test_ae opts lossFn mo p_label hGM test true test false⟩

/-- Witness for the amended C8 at concrete inputs: mode `ID`, healthy
patient — the autoencoder-only total is exactly the scaled reconstruction
and sparsity terms. -/
theorem ae_only_total_reconstruction_only_witness :
    ('G' ∉ (['I', 'D'] : List Char)) ∧ ('M' ∉ (['I', 'D'] : List Char))
  ∧ ((closure (⟨⟨1, 1, 1, 1, 1, 1, LossKind.bce⟩, ⟨['I', 'D']⟩⟩ : Options) bceMean
        ⟨[], [0], [0], [0], 0, 5, 7⟩ 0 false true).map LossBundle.total
      = some (if 'D' ∈ (['I', 'D'] : List Char) then
          (1 : ℝ) * 5 + (1 : ℝ) * 7 else 0)) :=
  ⟨by decide, by decide,
    ae_only_total_reconstruction_only.1
      ⟨⟨1, 1, 1, 1, 1, 1, LossKind.bce⟩, ⟨['I', 'D']⟩⟩ (by decide) (by decide) rfl
      [] 0 0 0 0 5 7 0 (Or.inl rfl) false⟩

/-- Counterexample to C8 as stated: under mode `G` with `autoencoder_only`
true, the returned total is the mode-`G` classification loss
`-1 * scale_1 * log (1/2) = log 2 ≠ 0` for a sick patient with fused score
`1/2` — not the reconstruction/sparsity-only total (here `0`, since `D` is
inactive), so `autoencoder_only` does not restrict the total in every
system mode. -/
theorem ae_only_total_cex :
    ((closure (⟨⟨1, 1, 1, 1, 1, 1, LossKind.bce⟩, ⟨['G']⟩⟩ : Options) bceMean
        ⟨[], [0], [0], [1/2], 1/2, 0, 0⟩ 1 false true).map LossBundle.total
      = some (-1 * 1 * Real.log (1/2)))
  ∧ (-1 * 1 * Real.log (1/2) : ℝ) ≠ 0 := by
  constructor
  · simp [closure, closureGM, bceMean_singleton, item]
  · intro hcon
    have h2 : Real.log (1/2 : ℝ) = 0 := by linarith
    rw [Real.log_eq_zero] at h2
    norm_num at h2

/- ===== Claim C9: the returned prediction scalar ===== -/

theorem closureAdd_pred_bce (opts : Options)
    (hG : 'G' ∉ opts.model.system_mode) (hM : 'M' ∉ opts.model.system_mode)
    (hb : opts.training.loss = LossKind.bce)
    (imgs : List ℝ) (g a x w re sp : ℝ) (label : ℕ)
    (hl : label = 0 ∨ label = 1) (test ae : Bool) :
    ((closure opts bceMean ⟨imgs, [g], [a], [x], w, re, sp⟩ label test ae).map
        LossBundle.pred = some (sigmoid x))
  ∧ ((closure opts bceMean ⟨imgs, [g], [a], [x], w, re, sp⟩ label test ae).map
        LossBundle.score = some x) := by
  have hor : ¬('G' ∈ opts.model.system_mode ∨ 'M' ∈ opts.model.system_mode) := by
    simp [hG, hM]
  rcases hl with rfl | rfl <;>
    by_cases hI : 'I' ∈ opts.model.system_mode <;>
      by_cases hA : 'A' ∈ opts.model.system_mode <;>
        cases test <;>
          constructor <;>
            simp [closure, hor, closureAdd, hI, hA, hb, bceMean_singleton, item]

theorem closureAdd_pred_nll (opts : Options)
    (hG : 'G' ∉ opts.model.system_mode) (hM : 'M' ∉ opts.model.system_mode)
    (hb : opts.training.loss = LossKind.nll)
    (imgs : List ℝ) (g a x0 x1 w re sp : ℝ) (label : ℕ)
    (hl : label = 0 ∨ label = 1) (test ae : Bool) :
    ((closure opts bceMean ⟨imgs, [g], [a], [x0, x1], w, re, sp⟩ label test ae).map
        LossBundle.pred
      = some (Real.exp x1 / (Real.exp x0 + Real.exp x1)))
  ∧ ((closure opts bceMean ⟨imgs, [g], [a], [x0, x1], w, re, sp⟩ label test ae).map
        LossBundle.score = some x1) := by
  have hor : ¬('G' ∈ opts.model.system_mode ∨ 'M' ∈ opts.model.system_mode) := by
    simp [hG, hM]
  rcases hl with rfl | rfl <;>
    by_cases hI : 'I' ∈ opts.model.system_mode <;>
      by_cases hA : 'A' ∈ opts.model.system_mode <;>
        cases test <;>
          constructor <;>
            simp [closure, hor, closureAdd, hI, hA, hb, bceMean_singleton, item]

theorem closureGM_pred_raw (opts : Options)
    (hGM : 'G' ∈ opts.model.system_mode ∨ 'M' ∈ opts.model.system_mode)
    (imgs : List ℝ) (g a x w re sp : ℝ) (label : ℕ)
    (hl : label = 0 ∨ label = 1) (test ae : Bool) :
    ((closure opts bceMean ⟨imgs, [g], [a], [x], w, re, sp⟩ label test ae).map
        LossBundle.pred = some x)
  ∧ ((closure opts bceMean ⟨imgs, [g], [a], [x], w, re, sp⟩ label test ae).map
        LossBundle.score = some x) := by
  rcases hl with rfl | rfl <;>
    by_cases hG : 'G' ∈ opts.model.system_mode <;>
      by_cases hT : 'T' ∈ opts.model.system_mode <;>
        constructor <;>
          first
          | (simp [closure, hGM, closureGM, hG, hT, List.replicate,
               bceMean_singleton, item, get_gate_target]
             done)
          | (have hM : 'M' ∈ opts.model.system_mode := hGM.resolve_left hG
             simp [closure, hGM, closureGM, hG, hT, hM, List.replicate,
               bceMean_singleton, item, get_gate_target])

/-- Claim C9 (amended): the returned prediction scalar `pred` is
`sigmoid(score)` for the `bce` loss family and `softmax(score)` at the
sick-class index for the `nll` family in the additive (non-`G`/`M`) system
modes; under the `G`/`M` modes, however, the closure returns the raw fused
score itself as `pred` regardless of the configured loss family. -/
theorem pred_derivation :
    (∀ (opts : Options), 'G' ∉ opts.model.system_mode →
        'M' ∉ opts.model.system_mode → opts.training.loss = LossKind.bce →
        ∀ (imgs : List ℝ) (g a x w re sp : ℝ) (label : ℕ),
          (label = 0 ∨ label = 1) → ∀ (test ae : Bool),
        ((closure opts bceMean ⟨imgs, [g], [a], [x], w, re, sp⟩ label test ae).map
            LossBundle.pred = some (sigmoid x))
      ∧ ((closure opts bceMean ⟨imgs, [g], [a], [x], w, re, sp⟩ label test ae).map
            LossBundle.score = some x))
  ∧ (∀ (opts : Options), 'G' ∉ opts.model.system_mode →
        'M' ∉ opts.model.system_mode → opts.training.loss = LossKind.nll →
        ∀ (imgs : List ℝ) (g a x0 x1 w re sp : ℝ) (label : ℕ),
          (label = 0 ∨ label = 1) → ∀ (test ae : Bool),
        ((closure opts bceMean ⟨imgs, [g], [a], [x0, x1], w, re, sp⟩ label test ae).map
            LossBundle.pred
          = some (Real.exp x1 / (Real.exp x0 + Real.exp x1)))
      ∧ ((closure opts bceMean ⟨imgs, [g], [a], [x0, x1], w, re, sp⟩ label test ae).map
            LossBundle.score = some x1))
  ∧ (∀ (opts : Options),
        ('G' ∈ opts.model.system_mode ∨ 'M' ∈ opts.model.system_mode) →
        ∀ (imgs : List ℝ) (g a x w re sp : ℝ) (label : ℕ),
          (label = 0 ∨ label = 1) → ∀ (test ae : Bool),
        ((closure opts bceMean ⟨imgs, [g], [a], [x], w, re, sp⟩ label test ae).map
            LossBundle.pred = some x)
      ∧ ((closure opts bceMean ⟨imgs, [g], [a], [x], w, re, sp⟩ label test ae).map
            LossBundle.score = some x)) :=
  ⟨fun opts hG hM hb imgs g a x w re sp label hl test ae =>
      closureAdd_pred_bce opts hG hM hb imgs g a x w re sp label hl test ae,
    fun opts hG hM hb imgs g a x0 x1 w re sp label hl test ae =>
      closureAdd_pred_nll opts hG hM hb imgs g a x0 x1 w re sp label hl test ae,
    fun opts hGM imgs g a x w re sp label hl test ae =>
      closureGM_pred_raw opts hGM imgs g a x w re sp label hl test ae⟩

/-- Witness for the amended C9 at concrete inputs: mode `IA`, `bce` loss —
the prediction is the sigmoid of the returned score. -/
theorem pred_derivation_witness :
    ('G' ∉ (['I', 'A'] : List Char)) ∧ ('M' ∉ (['I', 'A'] : List Char))
  ∧ ((closure (⟨⟨1, 1, 1, 1, 1, 1, LossKind.bce⟩, ⟨['I', 'A']⟩⟩ : Options) bceMean
        ⟨[], [0], [0], [3], 0, 0, 0⟩ 0 false false).map LossBundle.pred
      = some (sigmoid 3))
  ∧ ((closure (⟨⟨1, 1, 1, 1, 1, 1, LossKind.bce⟩, ⟨['I', 'A']⟩⟩ : Options) bceMean
        ⟨[], [0], [0], [3], 0, 0, 0⟩ 0 false false).map LossBundle.score
      = some 3) :=
  ⟨by decide, by decide,
    (pred_derivation.1 ⟨⟨1, 1, 1, 1, 1, 1, LossKind.bce⟩, ⟨['I', 'A']⟩⟩
      (by decide) (by decide) rfl [] 0 0 3 0 0 0 0 (Or.inl rfl) false false).1,
    (pred_derivation.1 ⟨⟨1, 1, 1, 1, 1, 1, LossKind.bce⟩, ⟨['I', 'A']⟩⟩
      (by decide) (by decide) rfl [] 0 0 3 0 0 0 0 (Or.inl rfl) false false).2⟩

/-- Counterexample to C9 as stated: under mode `G` with the `bce` loss
family and fused score 0, the closure returns `pred = 0` — the raw fused
score — while `sigmoid(score) = sigmoid 0 = 1/2 ≠ 0`, so `pred` is not the
sigmoid of the score in every system mode. -/
theorem pred_derivation_cex :
    ((closure (⟨⟨1, 1, 1, 1, 1, 1, LossKind.bce⟩, ⟨['G']⟩⟩ : Options) bceMean
        ⟨[], [0], [0], [0], 1/2, 0, 0⟩ 1 false false).map LossBundle.pred
      = some 0)
  ∧ ((closure (⟨⟨1, 1, 1, 1, 1, 1, LossKind.bce⟩, ⟨['G']⟩⟩ : Options) bceMean
        ⟨[], [0], [0], [0], 1/2, 0, 0⟩ 1 false false).map LossBundle.score
      = some 0)
  ∧ sigmoid 0 ≠ (0 : ℝ) := by
  refine ⟨?_, ?_, ?_⟩
  · simp [closure, closureGM, bceMean_singleton, item]
  · simp [closure, closureGM, bceMean_singleton, item]
  · norm_num [sigmoid, Real.exp_zero]

end LymphTrain
